import Mathlib

/-!
Verification of the themis.lat fraud-investigation backend: a shallow
embedding of the workflow aggregation step, the per-task investigation
wrapper, the ranking fallback, the WebSocket connection manager with its
event-log persistence, the replay engine, and the cache manager (OCR page
cache and HTML cache), each translated from `src/backend/app`.

Floating-point quantities of the source (timestamps in seconds, speed
multipliers, cache ages) are modelled as rationals; machine integers of
Python are unbounded, hence `Int`.
-/

namespace Themis

/-! ## Data model (src/backend/app/schemas.py) -/

/-- `Anomaly` (schemas.py): a detected anomaly.  The Python `confidence`
float in `[0,1]` is modelled as a rational; no property here inspects it. -/
structure Anomaly where
  anomaly_name : String
  description : String
  evidence : List String
  confidence : ℚ
  affected_documents : List String
deriving DecidableEq, Repr

/-- `TaskInvestigationOutput` (schemas.py): one agent's verdict for one
task. -/
structure TaskInvestigationOutput where
  task_id : Int
  task_code : String
  task_name : String
  validation_passed : Bool
  findings : List Anomaly
  investigation_summary : String
deriving DecidableEq, Repr

/-- `FraudDetectionOutput` (schemas.py): raw output of the fraud-detection
agent, converted by the workflow into a `TaskInvestigationOutput`. -/
structure FraudDetectionOutput where
  tender_id : String
  is_fraudulent : Bool
  anomalies : List Anomaly
  investigation_summary : String
deriving DecidableEq, Repr

/-- One catalog entry of `INVESTIGATION_TASKS`
(src/backend/app/investigation_tasks.py): a dict with keys
`id, code, name, desc, where_to_look, severity, subtasks`, all present on
every entry of the static catalog (and hence on every dispatched task). -/
structure InvestigationTask where
  id : Int
  code : String
  name : String
  desc : String
  where_to_look : String
  severity : String
  subtasks : List String
deriving DecidableEq, Repr

/-! ## Aggregation (workflow.py `_aggregate_results`, lines 640-663) -/

/-- The ordering used by `sorted(task_results, key=lambda x: x.task_id)`:
compare outputs by their `task_id`. -/
def taskIdLe (a b : TaskInvestigationOutput) : Prop :=
  a.task_id ≤ b.task_id

instance : DecidableRel taskIdLe := fun a b => Int.decLe a.task_id b.task_id

/-- `_aggregate_results` (workflow.py:661), the part that produces
`tasks_by_id`: `sorted(task_results, key=lambda x: x.task_id)`.  Python's
`sorted` is a stable sort by the key; we embed it as the stable
`List.insertionSort` under the key ordering. -/
def aggregate_results (task_results : List TaskInvestigationOutput) :
    List TaskInvestigationOutput :=
  task_results.insertionSort taskIdLe

instance : IsTotal TaskInvestigationOutput taskIdLe :=
  ⟨fun a b => Int.le_total a.task_id b.task_id⟩

instance : IsTrans TaskInvestigationOutput taskIdLe :=
  ⟨fun _ _ _ hab hbc => Int.le_trans hab hbc⟩

/-- The strict version of `taskIdLe`, used to derive uniqueness of the
sorted order when all `task_id`s are distinct. -/
def taskIdLt (a b : TaskInvestigationOutput) : Prop :=
  a.task_id < b.task_id

instance : IsAntisymm TaskInvestigationOutput taskIdLt :=
  ⟨fun _ _ h1 h2 => absurd (lt_trans h1 h2) (lt_irrefl _)⟩

/-! ## Per-task investigation (workflow.py `_investigate_task`, lines 424-573) -/

/-- Outcome of the per-task fraud-detection agent call inside
`_investigate_task`'s `try` block (agent construction + `agent.run`): the
agent either returns a `FraudDetectionOutput` or raises, in which case the
wrapper sees the formatted message `f"{type(e).__name__}: {str(e)}"`. -/
inductive AgentOutcome where
  | success (result : FraudDetectionOutput)
  | failure (error_msg : String)
deriving DecidableEq, Repr

/-- `_investigate_task` (workflow.py:424-573) as a function of the
dispatched task and the agent outcome.  On success it builds
`TaskInvestigationOutput` with `validation_passed = not result.is_fraudulent`
(workflow.py:527-534; the `task_id if isinstance(task_id, int) else 0`
guard is the identity here because catalog ids are ints); on exception it
returns the synthesized failure result (workflow.py:565-573). -/
def investigate_task (task : InvestigationTask) (outcome : AgentOutcome) :
    TaskInvestigationOutput :=
  match outcome with
  | .success result =>
      { task_id := task.id
        task_code := task.code
        task_name := task.name
        validation_passed := !result.is_fraudulent
        findings := result.anomalies
        investigation_summary := result.investigation_summary }
  | .failure error_msg =>
      { task_id := task.id
        task_code := task.code
        task_name := task.name
        validation_passed := false
        findings := []
        investigation_summary := "Investigation failed: " ++ error_msg }

/-! ## Ranking node (workflow.py `_ranking_node`, lines 271-381) -/

/-- The slice of `WorkflowState` read and written by `_ranking_node`. -/
structure RankingState where
  investigation_tasks : List InvestigationTask
  ranked_tasks : List InvestigationTask
  errors : List String
deriving DecidableEq, Repr

/-- Outcome of the feasibility-classification agent call
(`self.ranking_agent.run`, workflow.py:323): a `TaskClassificationOutput`
carrying `feasible_task_ids`, or an exception with message `str(e)`. -/
inductive ClassifierOutcome where
  | success (feasible_task_ids : List Int)
  | failure (msg : String)
deriving DecidableEq, Repr

/-- `_ranking_node` (workflow.py:271-381) restricted to its state effect.
On success: `ranked_tasks = [t for t in investigation_tasks if t["id"] in
feasible_ids]` (workflow.py:341-345).  On exception:
`errors.append(f"Task ranking error: {str(e)}")` and
`ranked_tasks = investigation_tasks[:5]` (workflow.py:376-378). -/
def ranking_node (state : RankingState) (outcome : ClassifierOutcome) :
    RankingState :=
  match outcome with
  | .success feasible_ids =>
      { state with
          ranked_tasks :=
            state.investigation_tasks.filter
              (fun t => feasible_ids.contains t.id) }
  | .failure msg =>
      { state with
          errors := state.errors ++ ["Task ranking error: " ++ msg]
          ranked_tasks := state.investigation_tasks.take 5 }

/-- The fan-out/fan-in stage after ranking: one `_investigate_task`
dispatch per ranked task (workflow.py:383-422), results accumulated by the
`add` reducer and then aggregated (workflow.py:640-663). -/
def workflow_after_ranking (ranked : List InvestigationTask)
    (outcomes : InvestigationTask → AgentOutcome) :
    List TaskInvestigationOutput :=
  aggregate_results (ranked.map fun t => investigate_task t (outcomes t))

/-! ## Observation events and the connection manager
(src/backend/app/utils/websocket_manager.py,
src/backend/app/services/websocket_log_service.py) -/

/-- An Observation Event: the JSON-shaped mapping sent over the WebSocket
and persisted to the log, modelled as an association list from field name
to string value (the structured `tasks_by_id` payload of a result event is
not inspected by any property here). -/
abbrev Observation := List (String × String)

/-- The Event Log Store (table `WebSocketLog`): append-only rows
`(tender_id, message_data)` in `created_at` order. -/
abbrev EventLog := List (String × Observation)

/-- Python dict assignment `d[k] = v`, on an association list. -/
def dictInsert (m : List (String × String)) (k v : String) :
    List (String × String) :=
  (k, v) :: m.filter (fun p => !(p.1 == k))

/-- Python set `add`, on a list without duplicates. -/
def setAdd (s : List String) (x : String) : List String :=
  if x ∈ s then s else x :: s

/-- The fields of `ConnectionManager` (websocket_manager.py:21-27) that
persistence depends on: `session_to_tender_id` and `replay_sessions`.
The live `active_connections` registry only affects delivery, never the
Event Log Store, and is omitted. -/
structure ConnectionManager where
  session_to_tender_id : List (String × String)
  replay_sessions : List String
deriving DecidableEq, Repr

/-- `ConnectionManager.register_tender_id` (websocket_manager.py:62-74):
`self.session_to_tender_id[session_id] = tender_id`, and
`if is_replay: self.replay_sessions.add(session_id)`.  There is no removal
path for `replay_sessions` anywhere in the class. -/
def register_tender_id (m : ConnectionManager)
    (session_id tender_id : String) (is_replay : Bool) : ConnectionManager :=
  { session_to_tender_id := dictInsert m.session_to_tender_id session_id tender_id
    replay_sessions :=
      if is_replay then setAdd m.replay_sessions session_id
      else m.replay_sessions }

/-- The persistence effect of `ConnectionManager.send_observation`
(websocket_manager.py:107-114): after best-effort delivery,
`tender_id = self.session_to_tender_id.get(session_id)`; the message is
appended to the log iff `tender_id` is truthy (a non-empty string) and
`session_id not in self.replay_sessions`.  `save_websocket_message`
(websocket_log_service.py:15-41) appends a `(tender_id, message)` row. -/
def send_observation_log (m : ConnectionManager) (log : EventLog)
    (session_id : String) (observation : Observation) : EventLog :=
  match m.session_to_tender_id.lookup session_id with
  | some tender_id =>
      if tender_id ≠ "" ∧ session_id ∉ m.replay_sessions then
        log ++ [(tender_id, observation)]
      else log
  | none => log

/-! ## Replay engine (src/backend/app/api/agent.py
`replay_websocket_messages`, lines 105-180) -/

/-- Python string truthiness for an optional string: `None` and `""` are
falsy. -/
def strTruthy : Option String → Option String
  | some "" => none
  | some s => some s
  | none => none

/-- The timestamp the replay loop uses for an event
(`msg.get('_db_timestamp') or msg.get('timestamp')`, agent.py:147-148),
combined with the truthiness test `if current_timestamp and
previous_timestamp` (agent.py:151): returns `some s` exactly when the
selected value is truthy, and then `s` is the value that is parsed. -/
def getTruthyTimestamp (obs : Observation) : Option String :=
  match strTruthy (obs.lookup "_db_timestamp") with
  | some s => some s
  | none => strTruthy (obs.lookup "timestamp")

/-- `{k: v for k, v in msg.items() if k != '_db_timestamp'}`
(agent.py:138 and 169): strip the internal bookkeeping field. -/
def clean_event (obs : Observation) : Observation :=
  obs.filter (fun p => !(p.1 == "_db_timestamp"))

/-- The fixed default inter-event gap `0.1` seconds used when timestamps
are missing or unparseable (agent.py:159 and 162). -/
def default_gap : ℚ := 1 / 10

/-- The sleep computed before one replayed event (agent.py:146-162):
parse both timestamps (`datetime.fromisoformat` after the `'Z'`
replacement, modelled by the `parse` parameter), take
`max(0, time_diff / replay_speed)`; on missing/falsy timestamps or a parse
failure, `0.1 / replay_speed`. -/
def sleep_duration (parse : String → Option ℚ) (replay_speed : ℚ)
    (previous_msg current_msg : Observation) : ℚ :=
  match getTruthyTimestamp current_msg, getTruthyTimestamp previous_msg with
  | some cs, some ps =>
      match parse cs, parse ps with
      | some cd, some pd => max 0 ((cd - pd) / replay_speed)
      | _, _ => default_gap / replay_speed
  | _, _ => default_gap / replay_speed

/-- The loop of agent.py:142-170: for each message after the first, pair
the computed sleep with the cleaned emitted event. -/
def replay_rest (parse : String → Option ℚ) (speed : ℚ) :
    Observation → List Observation → List (ℚ × Observation)
  | _, [] => []
  | prev, cur :: rest =>
      (sleep_duration parse speed prev cur, clean_event cur) ::
        replay_rest parse speed cur rest

/-- The emission trace of `replay_websocket_messages` on a non-empty
message list (agent.py:135-170): the first event is sent immediately
(sleep 0) and cleaned (agent.py:136-139), then each subsequent event is
sent after its computed sleep.  An empty list is handled separately
(agent.py:124-131). -/
def replay_trace (parse : String → Option ℚ) (speed : ℚ)
    (messages : List Observation) : List (ℚ × Observation) :=
  match messages with
  | [] => []
  | first :: rest =>
      (0, clean_event first) :: replay_rest parse speed first rest

/-! ## Background entry points (src/backend/app/api/agent.py) -/

/-- The error event shape used by both background tasks
(agent.py:126-130, 176-180, 228-232). -/
def errorEvent (msg : String) : Observation :=
  [("type", "error"), ("message", msg), ("status", "error")]

/-- The flat fields of the final result event (agent.py:206-222); its
structured `tasks_by_id` and the `workflow_summary` payloads are carried
opaquely as the summary string here — no property inspects them beyond
presence of `type`/`status`. -/
def resultEvent (workflow_summary : String) : Observation :=
  [("type", "result"), ("message", "Investigation completed"),
   ("workflow_summary", workflow_summary), ("status", "completed")]

/-- Outcome of the `try` body of `run_workflow_sync` up to (excluding) the
final result event: the workflow run either returns a result (whose
summary feeds the result event) or raises with message `str(e)`. -/
inductive LiveRunOutcome where
  | completes (workflow_summary : String)
  | raises (msg : String)
deriving DecidableEq, Repr

/-- The events emitted by `run_workflow_sync` (agent.py:183-232) given the
observations `pre_terminal` emitted inside the `try` body before its end
(workflow `_send_log` traffic; on a raise, those emitted before the
exception) and the body's outcome: on completion the final result event is
sent (agent.py:206-222), on any exception the `except` branch sends the
single error event `f"Investigation failed: {str(e)}"` (agent.py:228-232). -/
def run_workflow_sync_trace (pre_terminal : List Observation)
    (outcome : LiveRunOutcome) : List Observation :=
  match outcome with
  | .completes workflow_summary => pre_terminal ++ [resultEvent workflow_summary]
  | .raises msg => pre_terminal ++ [errorEvent ("Investigation failed: " ++ msg)]

/-- The keyword parameters accepted by `FraudDetectionWorkflow.__init__`
(workflow.py:98-103): `ranking_model`, `detection_model`, `temperature`,
with no `**kwargs`. -/
def fraudDetectionWorkflowInitParams : List String :=
  ["ranking_model", "detection_model", "temperature"]

/-- The keyword arguments passed to the constructor by `run_workflow_sync`
(agent.py:200): `FraudDetectionWorkflow(openrouter_api_key=...)`. -/
def runWorkflowSyncCtorKwargs : List String :=
  ["openrouter_api_key"]

/-- Python call semantics: the call raises `TypeError` iff some passed
keyword is not a declared parameter. -/
def ctorRaisesTypeError : Bool :=
  runWorkflowSyncCtorKwargs.any
    (fun k => !(fraudDetectionWorkflowInitParams.contains k))

/-- `run_workflow_sync` (agent.py:195-232) as executed: the constructor
call at agent.py:200 is the first statement of the `try` body that can
raise (`register_tender_id` at agent.py:197 emits nothing); if it raises
`TypeError` with message `ctor_msg`, the rest of the body (`rest`, i.e.
the workflow run and the result event) is never reached and the `except`
branch emits exactly the error event. -/
def run_workflow_sync_events (ctor_msg : String)
    (rest : Unit → List Observation) : List Observation :=
  if ctorRaisesTypeError then run_workflow_sync_trace [] (.raises ctor_msg)
  else rest ()

/-- Outcome of the `try` body of `replay_websocket_messages`: `none` if no
exception escapes, `some (pre_events, msg)` if an exception with message
`str(e)` escapes after `pre_events` were already emitted. -/
def ReplayRunOutcome := Option (List Observation × String)

/-- The events emitted by `replay_websocket_messages` (agent.py:105-180):
with no exception, an empty stored log yields the single synthetic error
event (agent.py:124-131) and a non-empty log yields the cleaned replayed
stream (agent.py:135-170); if an exception escapes the body, the `except`
branch appends the `f"Replay failed: {str(e)}"` error event
(agent.py:174-180). -/
def replay_run_trace (parse : String → Option ℚ) (speed : ℚ)
    (messages : List Observation) (outcome : ReplayRunOutcome) :
    List Observation :=
  match outcome with
  | none =>
      if messages = [] then [errorEvent "No saved messages found for replay"]
      else (replay_trace parse speed messages).map Prod.snd
  | some (pre_events, msg) =>
      pre_events ++ [errorEvent ("Replay failed: " ++ msg)]

/-- An event is a terminal signal iff its `type` is `result` or `error`. -/
def isTerminal (obs : Observation) : Bool :=
  obs.lookup "type" == some "result" || obs.lookup "type" == some "error"

/-! ## Cache manager (src/backend/app/utils/cache_manager.py) -/

/-- Key of one OCR cache file `{tender_id}_{row_id}_page_{page_num}.json`
(cache_manager.py:53). -/
abbrev OcrKey := String × Int × Int

/-- The OCR cache directory: a mapping from key to the stored `text`
field, modelled as an association list. -/
abbrev OcrCache := List (OcrKey × String)

/-- `CacheManager.get_ocr_result` (cache_manager.py:41-63): read the
per-page cache file, `None` when absent. -/
def get_ocr_result (cache : OcrCache) (tender_id : String)
    (row_id page_num : Int) : Option String :=
  cache.lookup (tender_id, row_id, page_num)

/-- `CacheManager.set_ocr_result` (cache_manager.py:65-86): write the
per-page cache file (overwriting any previous content for that key). -/
def set_ocr_result (cache : OcrCache) (tender_id : String)
    (row_id page_num : Int) (text : String) : OcrCache :=
  ((tender_id, row_id, page_num), text) ::
    cache.filter (fun e => !(e.1 == (tender_id, row_id, page_num)))

/-- Python `range(a, b)` over ints. -/
def pythonRange (a b : Int) : List Int :=
  List.map (fun k : Nat => a + (k : Int)) (List.range (b - a).toNat)

/-- `CacheManager.get_ocr_results_range` (cache_manager.py:88-109): the
dict of cached pages in `range(start_page, end_page + 1)`, in ascending
page order (Python dicts preserve the insertion order of the loop). -/
def get_ocr_results_range (cache : OcrCache) (tender_id : String)
    (row_id start_page end_page : Int) : List (Int × String) :=
  (pythonRange start_page (end_page + 1)).filterMap
    (fun p => (get_ocr_result cache tender_id row_id p).map (fun t => (p, t)))

/-- One `f"--- Page {page_num} ---\n{text}"` fragment of the assembled
output (read_buyer_attachment_doc.py:175 and 264). -/
def pagePart (page_num : Int) (text : String) : String :=
  s!"--- Page {page_num} ---\n{text}"

/-- The observable result of the OCR section of
`read_buyer_attachment_doc`: the assembled text, the pages read, the OCR
cache state after the call, and the 0-indexed page list sent to the OCR
collaborator (`none` when no collaborator call was made). -/
structure OcrReadResult where
  text : String
  pages_read : List Int
  cache : OcrCache
  ocr_called_with : Option (List Int)
deriving DecidableEq, Repr

/-- `requested_pages = set(range(start_page, end_page + 1))`
(read_buyer_attachment_doc.py:165), kept in ascending order. -/
def requested_pages (start_page end_page : Int) : List Int :=
  pythonRange start_page (end_page + 1)

/-- `pages_to_ocr = requested_pages - pages_in_cache`
(read_buyer_attachment_doc.py:166-167): the requested pages missing from
the per-page OCR cache.  Filtering the ascending requested range keeps
ascending order, matching the later `sorted(pages_to_ocr)` (line 198). -/
def pages_to_ocr (cache : OcrCache) (tender_id : String)
    (row_id start_page end_page : Int) : List Int :=
  (requested_pages start_page end_page).filter
    (fun p =>
      !((get_ocr_results_range cache tender_id row_id start_page end_page).lookup
          p).isSome)

/-- The `newly_extracted` dict built from the OCR response
(read_buyer_attachment_doc.py:240-248): each response page's `index` is
converted back to 1-indexed and pages with falsy (empty) markdown are
skipped. -/
def newly_extracted (response : List (Int × String)) : List (Int × String) :=
  (response.map (fun pr => (pr.1 + 1, pr.2))).filter (fun pr => !(pr.2 == ""))

/-- The per-page write-back loop (read_buyer_attachment_doc.py:241-248):
`cache.set_ocr_result(...)` for each newly extracted page, performed
before assembly. -/
def ocr_write_back (cache : OcrCache) (tender_id : String) (row_id : Int)
    (newly : List (Int × String)) : OcrCache :=
  newly.foldl (fun c pr => set_ocr_result c tender_id row_id pr.1 pr.2) cache

/-- The merge `all_pages = {**cached_pages, **newly_extracted}`
(read_buyer_attachment_doc.py:257): newly extracted entries override
cached ones. -/
def merged_pages (cached newly : List (Int × String)) (p : Int) :
    Option String :=
  match newly.lookup p with
  | some t => some t
  | none => cached.lookup p

/-- The assembly loop (read_buyer_attachment_doc.py:171-178 and 259-267):
walk the requested pages in ascending order, keep those present, format
each as a `--- Page N ---` fragment and join with blank lines. -/
def assemble_text (pages : List Int) (lookup_fn : Int → Option String) :
    String :=
  String.intercalate "\n\n"
    (pages.filterMap (fun p => (lookup_fn p).map (pagePart p)))

/-- The OCR path of `read_buyer_attachment_doc`
(src/backend/app/tools/read_buyer_attachment_doc.py:158-287), for a fixed
`(tender_id, row_id)` document.  `collaborator` models
`client.ocr.process` restricted to its observable behaviour: given the
0-indexed `pages` parameter it returns `(index, markdown)` pairs.  The
first branch is the all-cached early return (lines 170-188, where every
requested page is present in `cached_pages`, making the loop's lookups
total); the second branch calls the collaborator on
`pages_to_process = [p - 1 for p in sorted(pages_to_ocr)]` (line 198),
writes each newly extracted page back individually before assembly (lines
240-248), merges and assembles (lines 257-267). -/
def read_buyer_attachment_doc_ocr (cache : OcrCache) (tender_id : String)
    (row_id start_page end_page : Int)
    (collaborator : List Int → List (Int × String)) : OcrReadResult :=
  if pages_to_ocr cache tender_id row_id start_page end_page = [] then
    { text := assemble_text (requested_pages start_page end_page)
        (fun p =>
          (get_ocr_results_range cache tender_id row_id start_page end_page).lookup p)
      pages_read := (requested_pages start_page end_page).filter
        (fun p =>
          ((get_ocr_results_range cache tender_id row_id start_page end_page).lookup
              p).isSome)
      cache := cache
      ocr_called_with := none }
  else
    { text := assemble_text (requested_pages start_page end_page)
        (merged_pages
          (get_ocr_results_range cache tender_id row_id start_page end_page)
          (newly_extracted (collaborator
            ((pages_to_ocr cache tender_id row_id start_page end_page).map
              (fun p => p - 1)))))
      pages_read := (requested_pages start_page end_page).filter
        (fun p =>
          (merged_pages
            (get_ocr_results_range cache tender_id row_id start_page end_page)
            (newly_extracted (collaborator
              ((pages_to_ocr cache tender_id row_id start_page end_page).map
                (fun p => p - 1)))) p).isSome)
      cache := ocr_write_back cache tender_id row_id
        (newly_extracted (collaborator
          ((pages_to_ocr cache tender_id row_id start_page end_page).map
            (fun p => p - 1))))
      ocr_called_with :=
        some ((pages_to_ocr cache tender_id row_id start_page end_page).map
          (fun p => p - 1)) }

/-- The state of one HTML cache file (the file `{md5(url)}.json`,
cache_manager.py:137-138): absent, present but corrupt/unreadable (the
`json.JSONDecodeError` / `IOError` / `KeyError` / `ValueError` cases of
cache_manager.py:157), or a valid entry with its `cached_at` time (seconds)
and `html` payload. -/
inductive HtmlFileState where
  | absent
  | corrupt
  | entry (cached_at : ℚ) (html : String)
deriving DecidableEq, Repr

/-- `CacheManager.set_html` (cache_manager.py:160-178): write the entry
with `cached_at = now`. -/
def set_html (html : String) (now : ℚ) : HtmlFileState :=
  .entry now html

/-- `CacheManager.get_html` (cache_manager.py:126-158) for one URL's file
state at time `now`: absent file → `None`; corrupt/unreadable file →
caught exception, `None`, file untouched; valid entry → if
`age > max_age_seconds` the file is unlinked and `None` returned, else the
cached html is returned.  Returns the value and the file state after the
call. -/
def get_html (file : HtmlFileState) (now max_age_seconds : ℚ) :
    Option String × HtmlFileState :=
  match file with
  | .absent => (none, .absent)
  | .corrupt => (none, .corrupt)
  | .entry cached_at html =>
      if now - cached_at > max_age_seconds then (none, .absent)
      else (some html, .entry cached_at html)

/-! ## Helper lemmas -/

/-- A list that is sorted under the non-strict key order and whose keys are
pairwise distinct is sorted under the strict key order. -/
lemma sorted_taskIdLt_of_sorted_nodup (l : List TaskInvestigationOutput)
    (hs : l.Sorted taskIdLe)
    (hn : (l.map TaskInvestigationOutput.task_id).Nodup) :
    l.Sorted taskIdLt := by
  have hne : l.Pairwise (fun a b : TaskInvestigationOutput =>
      a.task_id ≠ b.task_id) := (List.pairwise_map).mp hn
  exact (hs.and hne).imp (fun h => lt_of_le_of_ne h.1 h.2)

/-! ## C1: order-independent, id-sorted aggregation -/

/-- C1.  Aggregation is order-independent and id-sorted: when the
accumulated `task_investigation_results` have pairwise-distinct `task_id`s
(one result per dispatched feasible task), running `_aggregate_results`'s
sort on any permutation of them — any parallel completion order — yields
the identical final `tasks_by_id` list, and that list is sorted by
`task_id` ascending. -/
theorem aggregation_order_independent
    (l l' : List TaskInvestigationOutput)
    (hperm : l'.Perm l)
    (hnodup : (l.map TaskInvestigationOutput.task_id).Nodup) :
    aggregate_results l' = aggregate_results l ∧
    (aggregate_results l).Sorted taskIdLe := by
  have s1 : (aggregate_results l).Sorted taskIdLe :=
    List.sorted_insertionSort taskIdLe l
  have s2 : (aggregate_results l').Sorted taskIdLe :=
    List.sorted_insertionSort taskIdLe l'
  have p1 : (aggregate_results l).Perm l := List.perm_insertionSort taskIdLe l
  have p2 : (aggregate_results l').Perm l' := List.perm_insertionSort taskIdLe l'
  have pagg : (aggregate_results l').Perm (aggregate_results l) :=
    (p2.trans hperm).trans p1.symm
  have hn1 : ((aggregate_results l).map TaskInvestigationOutput.task_id).Nodup :=
    ((p1.map TaskInvestigationOutput.task_id).symm).nodup hnodup
  have hn2 : ((aggregate_results l').map TaskInvestigationOutput.task_id).Nodup :=
    ((pagg.map TaskInvestigationOutput.task_id).symm).nodup hn1
  refine ⟨@List.eq_of_perm_of_sorted _ taskIdLt _ _ _ pagg ?_ ?_, s1⟩
  · exact sorted_taskIdLt_of_sorted_nodup _ s2 hn2
  · exact sorted_taskIdLt_of_sorted_nodup _ s1 hn1

/-- C1 witness: two concrete results completing in either order aggregate
to the same sorted list. -/
theorem aggregation_order_independent_witness :
    (([⟨2, "H-02", "b", true, [], "sb"⟩, ⟨1, "H-01", "a", false, [], "sa"⟩] :
        List TaskInvestigationOutput).Perm
      [⟨1, "H-01", "a", false, [], "sa"⟩, ⟨2, "H-02", "b", true, [], "sb"⟩]) ∧
    (([⟨1, "H-01", "a", false, [], "sa"⟩, ⟨2, "H-02", "b", true, [], "sb"⟩] :
        List TaskInvestigationOutput).map TaskInvestigationOutput.task_id).Nodup ∧
    (aggregate_results
        [⟨2, "H-02", "b", true, [], "sb"⟩, ⟨1, "H-01", "a", false, [], "sa"⟩] =
      aggregate_results
        [⟨1, "H-01", "a", false, [], "sa"⟩, ⟨2, "H-02", "b", true, [], "sb"⟩] ∧
    (aggregate_results
        [⟨1, "H-01", "a", false, [], "sa"⟩, ⟨2, "H-02", "b", true, [], "sb"⟩]).Sorted
      taskIdLe) :=
  ⟨by decide, by decide,
    aggregation_order_independent
      [⟨1, "H-01", "a", false, [], "sa"⟩, ⟨2, "H-02", "b", true, [], "sb"⟩]
      [⟨2, "H-02", "b", true, [], "sb"⟩, ⟨1, "H-01", "a", false, [], "sa"⟩]
      (by decide) (by decide)⟩

/-! ## C2: no task lost under failure -/

/-- The wrapper assigns the dispatched task's id in both the success and
the failure branch. -/
lemma investigate_task_id (t : InvestigationTask) (o : AgentOutcome) :
    (investigate_task t o).task_id = t.id := by
  cases o <;> rfl

/-- In a task list with pairwise-distinct ids, exactly one member carries
the id of any given member. -/
lemma countP_id_eq_one :
    ∀ (tasks : List InvestigationTask),
      (tasks.map InvestigationTask.id).Nodup →
      ∀ K : InvestigationTask, K ∈ tasks →
      tasks.countP (fun t => t.id == K.id) = 1 := by
  intro tasks
  induction tasks with
  | nil => intro _ K hK; cases hK
  | cons a tl ih =>
      intro hnodup K hK
      rw [List.map_cons, List.nodup_cons] at hnodup
      obtain ⟨hna, hntl⟩ := hnodup
      rw [List.countP_cons]
      rcases List.mem_cons.mp hK with hKa | hKtl
      · subst hKa
        have hzero : tl.countP (fun t => t.id == K.id) = 0 := by
          rw [List.countP_eq_zero]
          intro t ht hbeq
          have htid : t.id = K.id := by simpa using hbeq
          exact hna (by rw [← htid]; exact List.mem_map_of_mem _ ht)
        simp [hzero]
      · have hne : ¬((a.id == K.id) = true) := by
          intro hbeq
          have haid : a.id = K.id := by simpa using hbeq
          exact hna (by rw [haid]; exact List.mem_map_of_mem _ hKtl)
        rw [ih hntl K hKtl]
        simp [hne]

/-- C2.  No task is lost under failure: when each dispatched feasible task
produces its wrapper output (`results` is some completion-order permutation
of the dispatched outputs) and the feasible tasks have distinct ids, a task
`K` whose investigation raised yields exactly one entry with
`task_id = K.id` in the final `tasks_by_id`, and that entry has
`validation_passed = false`, empty `findings`, and the synthesized
`"Investigation failed: ..."` summary. -/
theorem no_task_lost_under_failure
    (tasks : List InvestigationTask)
    (outcomes : InvestigationTask → AgentOutcome)
    (results : List TaskInvestigationOutput)
    (hperm : results.Perm (tasks.map fun t => investigate_task t (outcomes t)))
    (hnodup : (tasks.map InvestigationTask.id).Nodup)
    (K : InvestigationTask) (hK : K ∈ tasks)
    (msg : String) (hfail : outcomes K = AgentOutcome.failure msg) :
    (aggregate_results results).countP (fun r => r.task_id == K.id) = 1 ∧
    ∀ r ∈ aggregate_results results, r.task_id = K.id →
      r.validation_passed = false ∧ r.findings = [] ∧
      r.investigation_summary = "Investigation failed: " ++ msg := by
  have pagg : (aggregate_results results).Perm
      (tasks.map fun t => investigate_task t (outcomes t)) :=
    (List.perm_insertionSort taskIdLe results).trans hperm
  constructor
  · rw [pagg.countP_eq, List.countP_map]
    have hcomp : ((fun r : TaskInvestigationOutput => r.task_id == K.id) ∘
        fun t => investigate_task t (outcomes t)) =
          fun t : InvestigationTask => t.id == K.id := by
      funext t
      simp [Function.comp, investigate_task_id]
    rw [hcomp]
    exact countP_id_eq_one tasks hnodup K hK
  · intro r hr hrid
    have hrmem : r ∈ tasks.map (fun t => investigate_task t (outcomes t)) :=
      pagg.subset hr
    obtain ⟨t, ht, rfl⟩ := List.mem_map.mp hrmem
    have htid : t.id = K.id := by rwa [investigate_task_id] at hrid
    have htK : t = K := List.inj_on_of_nodup_map hnodup ht hK htid
    subst htK
    rw [hfail]
    exact ⟨rfl, rfl, rfl⟩

/-- C2 witness: two concrete feasible tasks, the second one's agent raises;
the aggregated output has exactly one entry for its id. -/
theorem no_task_lost_under_failure_witness :
    ((([⟨1, "H-01", "n1", "d", "w", "Low", []⟩,
        ⟨2, "H-02", "n2", "d", "w", "Low", []⟩] :
          List InvestigationTask).map
        (fun t => investigate_task t
          (if t.id = 2 then AgentOutcome.failure "boom"
           else AgentOutcome.success ⟨"T", false, [], "ok"⟩))).reverse.Perm
      (([⟨1, "H-01", "n1", "d", "w", "Low", []⟩,
        ⟨2, "H-02", "n2", "d", "w", "Low", []⟩] :
          List InvestigationTask).map
        (fun t => investigate_task t
          (if t.id = 2 then AgentOutcome.failure "boom"
           else AgentOutcome.success ⟨"T", false, [], "ok"⟩)))) ∧
    (aggregate_results
        ((([⟨1, "H-01", "n1", "d", "w", "Low", []⟩,
            ⟨2, "H-02", "n2", "d", "w", "Low", []⟩] :
              List InvestigationTask).map
            (fun t => investigate_task t
              (if t.id = 2 then AgentOutcome.failure "boom"
               else AgentOutcome.success ⟨"T", false, [], "ok"⟩))).reverse)).countP
      (fun r => r.task_id == (2 : Int)) = 1 :=
  ⟨by decide,
    (no_task_lost_under_failure
      [⟨1, "H-01", "n1", "d", "w", "Low", []⟩,
       ⟨2, "H-02", "n2", "d", "w", "Low", []⟩]
      (fun t => if t.id = 2 then AgentOutcome.failure "boom"
        else AgentOutcome.success ⟨"T", false, [], "ok"⟩)
      _ (by decide) (by decide)
      ⟨2, "H-02", "n2", "d", "w", "Low", []⟩ (by decide)
      "boom" (by decide)).1⟩

/-! ## C3 and C10: replay-mode persistence suppression -/

/-- An emission on a session in `replay_sessions` leaves the Event Log
Store untouched. -/
lemma send_observation_log_replay (m : ConnectionManager) (log : EventLog)
    (s : String) (o : Observation) (hs : s ∈ m.replay_sessions) :
    send_observation_log m log s o = log := by
  unfold send_observation_log
  cases m.session_to_tender_id.lookup s with
  | none => rfl
  | some tender_id =>
      show (if tender_id ≠ "" ∧ s ∉ m.replay_sessions then
        log ++ [(tender_id, o)] else log) = log
      rw [if_neg]
      intro h
      exact h.2 hs

/-- `setAdd` puts its argument in the set. -/
lemma mem_setAdd (s : List String) (x : String) : x ∈ setAdd s x := by
  unfold setAdd
  by_cases h : x ∈ s
  · rwa [if_pos h]
  · rw [if_neg h]; exact List.mem_cons_self x s

/-- `setAdd` keeps old members. -/
lemma mem_setAdd_of_mem (s : List String) (x y : String) (h : y ∈ s) :
    y ∈ setAdd s x := by
  unfold setAdd
  by_cases hx : x ∈ s
  · rwa [if_pos hx]
  · rw [if_neg hx]; exact List.mem_cons_of_mem x h

/-- `register_tender_id` never removes a session from `replay_sessions`. -/
lemma register_preserves_replay (m : ConnectionManager)
    (s s' t' : String) (b : Bool) (h : s ∈ m.replay_sessions) :
    s ∈ (register_tender_id m s' t' b).replay_sessions := by
  unfold register_tender_id
  cases b with
  | false => exact h
  | true => exact mem_setAdd_of_mem _ _ _ h

/-- C3.  Replay never re-persists: once a session is bound to a tender in
replay mode by `register_tender_id(..., is_replay=True)` — as
`replay_websocket_messages` does before emitting anything — every sequence
of events sent through `send_observation` on that session leaves the Event
Log Store exactly as it was, so for every tender_id the log length after a
full replay equals the length before. -/
theorem replay_never_repersists (m : ConnectionManager) (s t : String)
    (obs_list : List Observation) (log : EventLog) :
    (obs_list.foldl
        (fun lg o => send_observation_log (register_tender_id m s t true) lg s o)
        log) = log ∧
    (obs_list.foldl
        (fun lg o => send_observation_log (register_tender_id m s t true) lg s o)
        log).length = log.length := by
  have hs : s ∈ (register_tender_id m s t true).replay_sessions := by
    unfold register_tender_id
    exact mem_setAdd _ _
  have hfold : ∀ (l : List Observation) (lg : EventLog),
      (l.foldl (fun lg o =>
        send_observation_log (register_tender_id m s t true) lg s o) lg) = lg := by
    intro l
    induction l with
    | nil => intro lg; rfl
    | cons o rest ih =>
        intro lg
        rw [List.foldl_cons, send_observation_log_replay _ _ _ _ hs, ih]
  refine ⟨hfold obs_list log, ?_⟩
  rw [hfold obs_list log]

/-- C10.  The replay flag is sticky: after `register_tender_id(s, t,
is_replay=True)`, no later sequence of `register_tender_id` calls — in
particular a re-registration of the same session with `is_replay=False` —
removes `s` from `replay_sessions` (the class has no removal path), so no
event emitted on `s` is ever persisted to the Event Log Store for the
lifetime of the connection manager. -/
theorem replay_flag_sticky (m : ConnectionManager) (s t : String)
    (ops : List (String × String × Bool)) :
    s ∈ ((ops.foldl
        (fun st op => register_tender_id st op.1 op.2.1 op.2.2)
        (register_tender_id m s t true)).replay_sessions) ∧
    ∀ (log : EventLog) (o : Observation),
      send_observation_log
        (ops.foldl (fun st op => register_tender_id st op.1 op.2.1 op.2.2)
          (register_tender_id m s t true)) log s o = log := by
  have hstart : s ∈ (register_tender_id m s t true).replay_sessions := by
    unfold register_tender_id
    exact mem_setAdd _ _
  have hmem : ∀ (l : List (String × String × Bool)) (st : ConnectionManager),
      s ∈ st.replay_sessions →
      s ∈ (l.foldl (fun st op => register_tender_id st op.1 op.2.1 op.2.2)
        st).replay_sessions := by
    intro l
    induction l with
    | nil => intro st h; exact h
    | cons op rest ih =>
        intro st h
        exact ih _ (register_preserves_replay st s op.1 op.2.1 op.2.2 h)
  refine ⟨hmem ops _ hstart, ?_⟩
  intro log o
  exact send_observation_log_replay _ _ _ _ (hmem ops _ hstart)

/-! ## Replay-engine helper lemmas -/

/-- Stripping a key from an association list makes its lookup come back
empty. -/
lemma lookup_strip_key (k : String) (l : List (String × String)) :
    (l.filter (fun p => !(p.1 == k))).lookup k = none := by
  induction l with
  | nil => rfl
  | cons p rest ih =>
      rcases p with ⟨a, b⟩
      by_cases h : a = k
      · simpa [List.filter_cons, h] using ih
      · have hba : (k == a) = false := beq_eq_false_iff_ne.mpr (Ne.symm h)
        simp [List.filter_cons, h, List.lookup_cons, hba, ih]

/-- A cleaned event carries no `_db_timestamp` field. -/
lemma clean_event_lookup (obs : Observation) :
    (clean_event obs).lookup "_db_timestamp" = none :=
  lookup_strip_key "_db_timestamp" obs

/-- The replay loop emits exactly the cleaned remaining messages, in
order. -/
lemma replay_rest_map_snd (parse : String → Option ℚ) (speed : ℚ) :
    ∀ (prev : Observation) (rest : List Observation),
      (replay_rest parse speed prev rest).map Prod.snd = rest.map clean_event := by
  intro prev rest
  induction rest generalizing prev with
  | nil => rfl
  | cons c rs ih => simp [replay_rest, ih]

/-- The replay trace emits exactly the cleaned messages, in order. -/
lemma replay_trace_map_snd (parse : String → Option ℚ) (speed : ℚ)
    (messages : List Observation) :
    (replay_trace parse speed messages).map Prod.snd =
      messages.map clean_event := by
  cases messages with
  | nil => rfl
  | cons first rest => simp [replay_trace, replay_rest_map_snd]

/-- Indexing the replay loop: entry `i` pairs the sleep computed from
messages `i` (predecessor) and `i+1` with the cleaned message `i+1`,
indices taken in the `prev :: rest` chain. -/
lemma replay_rest_get? (parse : String → Option ℚ) (speed : ℚ) :
    ∀ (prev : Observation) (rest : List Observation) (i : ℕ),
      (replay_rest parse speed prev rest).get? i =
        ((prev :: rest).get? i).bind (fun p =>
          (rest.get? i).map
            (fun c => (sleep_duration parse speed p c, clean_event c))) := by
  intro prev rest
  induction rest generalizing prev with
  | nil => intro i; cases i <;> rfl
  | cons c rs ih =>
      intro i
      cases i with
      | zero => rfl
      | succ n =>
          show (replay_rest parse speed c rs).get? n = _
          rw [ih c n]
          rfl

/-- The sleep before one replayed event, when both timestamps are present
and parse. -/
lemma sleep_duration_parsed (parse : String → Option ℚ) (speed : ℚ)
    (prev cur : Observation) (tc tp : ℚ)
    (hc : (getTruthyTimestamp cur).bind parse = some tc)
    (hp : (getTruthyTimestamp prev).bind parse = some tp) :
    sleep_duration parse speed prev cur = max 0 ((tc - tp) / speed) := by
  rcases Option.bind_eq_some.mp hc with ⟨cs, hcs, hpc⟩
  rcases Option.bind_eq_some.mp hp with ⟨ps, hps, hpp⟩
  unfold sleep_duration
  rw [hcs, hps]
  simp [hpc, hpp]

/-- The sleep before one replayed event, when a timestamp is missing,
falsy, or unparseable: the fixed default gap scaled by the speed. -/
lemma sleep_duration_default (parse : String → Option ℚ) (speed : ℚ)
    (prev cur : Observation)
    (h : (getTruthyTimestamp cur).bind parse = none ∨
         (getTruthyTimestamp prev).bind parse = none) :
    sleep_duration parse speed prev cur = default_gap / speed := by
  unfold sleep_duration
  rcases hc : getTruthyTimestamp cur with _ | cs
  · rfl
  · rcases hp : getTruthyTimestamp prev with _ | ps
    · rfl
    · rw [hc, hp] at h
      simp only [Option.some_bind] at h
      show (match parse cs, parse ps with
        | some cd, some pd => max 0 ((cd - pd) / speed)
        | _, _ => default_gap / speed) = default_gap / speed
      rcases hpc : parse cs with _ | tc
      · rfl
      · rcases hpp : parse ps with _ | tp
        · rfl
        · rw [hpc, hpp] at h
          rcases h with h | h <;> exact absurd h (by simp)

/-- Sleeps are never negative when the speed multiplier is positive. -/
lemma sleep_duration_nonneg (parse : String → Option ℚ) (speed : ℚ)
    (prev cur : Observation) (hs : 0 < speed) :
    0 ≤ sleep_duration parse speed prev cur := by
  have hd : 0 ≤ default_gap / speed :=
    div_nonneg (by norm_num [default_gap]) hs.le
  rcases hc : (getTruthyTimestamp cur).bind parse with _ | tc
  · rw [sleep_duration_default parse speed prev cur (Or.inl hc)]
    exact hd
  · rcases hp : (getTruthyTimestamp prev).bind parse with _ | tp
    · rw [sleep_duration_default parse speed prev cur (Or.inr hp)]
      exact hd
    · rw [sleep_duration_parsed parse speed prev cur tc tp hc hp]
      exact le_max_left 0 _

/-- Every sleep in the replay loop is nonnegative. -/
lemma replay_rest_sleep_nonneg (parse : String → Option ℚ) (speed : ℚ)
    (hs : 0 < speed) :
    ∀ (prev : Observation) (rest : List Observation),
      ∀ p ∈ replay_rest parse speed prev rest, 0 ≤ p.1 := by
  intro prev rest
  induction rest generalizing prev with
  | nil => intro p hp; cases hp
  | cons c rs ih =>
      intro p hp
      rcases List.mem_cons.mp hp with hp | hp
      · rw [hp]
        exact sleep_duration_nonneg parse speed prev c hs
      · exact ih c p hp

/-! ## C5: replay timing -/

/-- C5.  Replay timing: on a non-empty recorded log and speed `m > 0`, the
replay emits the first event with no sleep; before each subsequent event
`i` it sleeps exactly `max 0 ((t_i - t_(i-1)) / m)` when the stored
timestamps parse, and the fixed default gap `0.1 / m` when a timestamp is
missing or fails to parse; every sleep is nonnegative; the
`_db_timestamp` bookkeeping field is stripped from every event before
emission, the emitted events being exactly the stripped messages in
order. -/
theorem replay_timing
    (parse : String → Option ℚ) (speed : ℚ) (messages : List Observation)
    (hne : messages ≠ []) (hs : 0 < speed) :
    ((replay_trace parse speed messages).map Prod.snd =
        messages.map clean_event) ∧
    (∀ p ∈ replay_trace parse speed messages,
        p.2.lookup "_db_timestamp" = none) ∧
    ((replay_trace parse speed messages).get? 0 =
        some (0, clean_event messages.headI)) ∧
    (∀ i (prev cur : Observation),
      messages.get? i = some prev → messages.get? (i + 1) = some cur →
      (∀ tc tp : ℚ,
          (getTruthyTimestamp cur).bind parse = some tc →
          (getTruthyTimestamp prev).bind parse = some tp →
          (replay_trace parse speed messages).get? (i + 1) =
            some (max 0 ((tc - tp) / speed), clean_event cur)) ∧
      (((getTruthyTimestamp cur).bind parse = none ∨
          (getTruthyTimestamp prev).bind parse = none) →
          (replay_trace parse speed messages).get? (i + 1) =
            some (default_gap / speed, clean_event cur))) ∧
    (∀ p ∈ replay_trace parse speed messages, 0 ≤ p.1) := by
  rcases messages with _ | ⟨first, rest⟩
  · exact absurd rfl hne
  refine ⟨replay_trace_map_snd parse speed _, ?_, rfl, ?_, ?_⟩
  · intro p hp
    have hmem : p.2 ∈ (replay_trace parse speed (first :: rest)).map Prod.snd :=
      List.mem_map_of_mem _ hp
    rw [replay_trace_map_snd] at hmem
    rcases List.mem_map.mp hmem with ⟨o, _, ho⟩
    rw [← ho]
    exact clean_event_lookup o
  · intro i prev cur hprev hcur
    have hget : (replay_trace parse speed (first :: rest)).get? (i + 1) =
        some (sleep_duration parse speed prev cur, clean_event cur) := by
      have h1 : (replay_trace parse speed (first :: rest)).get? (i + 1) =
          (replay_rest parse speed first rest).get? i := rfl
      have h2 : rest.get? i = some cur := by simpa using hcur
      rw [h1, replay_rest_get? parse speed first rest i, hprev, h2]
      rfl
    constructor
    · intro tc tp hc hp
      rw [hget, sleep_duration_parsed parse speed prev cur tc tp hc hp]
    · intro h
      rw [hget, sleep_duration_default parse speed prev cur h]
  · intro p hp
    rcases List.mem_cons.mp hp with hph | hpt
    · simp [hph]
    · exact replay_rest_sleep_nonneg parse speed hs first rest p hpt

/-- C5 witness: a concrete three-event log replayed at 4x speed; the first
event goes out with no sleep and cleaned. -/
theorem replay_timing_witness :
    (([[("type", "log"), ("_db_timestamp", "X")],
       [("type", "log"), ("_db_timestamp", "Y")],
       [("type", "result"), ("timestamp", "bad")]] : List Observation) ≠ []) ∧
    ((0 : ℚ) < 4) ∧
    ((replay_trace
        (fun s => if s = "X" then some 0 else if s = "Y" then some 2 else none)
        4
        [[("type", "log"), ("_db_timestamp", "X")],
         [("type", "log"), ("_db_timestamp", "Y")],
         [("type", "result"), ("timestamp", "bad")]]).get? 0 =
      some (0, clean_event [("type", "log"), ("_db_timestamp", "X")])) :=
  ⟨List.cons_ne_nil _ _, by norm_num,
    (replay_timing
      (fun s => if s = "X" then some 0 else if s = "Y" then some 2 else none)
      4
      [[("type", "log"), ("_db_timestamp", "X")],
       [("type", "log"), ("_db_timestamp", "Y")],
       [("type", "result"), ("timestamp", "bad")]]
      (List.cons_ne_nil _ _) (by norm_num)).2.2.1⟩

/-! ## C7: HTML cache TTL boundary -/

/-- C7.  HTML cache TTL boundary: an entry set at time `T` is returned
unchanged by `get_html` with max age `S` while its age is below `S`; once
its age exceeds `S` the cache file is deleted as a side effect and the
read reports absent; a corrupt or unreadable entry never raises — it is
treated as absent (and, unlike a stale entry, left in place). -/
theorem html_cache_ttl (T S now : ℚ) (html : String) :
    (now - T < S →
      get_html (set_html html T) now S = (some html, set_html html T)) ∧
    (now - T > S →
      get_html (set_html html T) now S = (none, HtmlFileState.absent)) ∧
    (get_html HtmlFileState.corrupt now S = (none, HtmlFileState.corrupt)) ∧
    (get_html HtmlFileState.absent now S = (none, HtmlFileState.absent)) := by
  refine ⟨?_, ?_, rfl, rfl⟩
  · intro h
    show (if now - T > S then ((none : Option String), HtmlFileState.absent)
        else (some html, HtmlFileState.entry T html)) =
      (some html, HtmlFileState.entry T html)
    rw [if_neg (lt_asymm h)]
  · intro h
    show (if now - T > S then ((none : Option String), HtmlFileState.absent)
        else (some html, HtmlFileState.entry T html)) =
      (none, HtmlFileState.absent)
    rw [if_pos h]

/-- C7 witness: an entry cached at time 0 with max age 10 is served at age
5 and deleted at age 15. -/
theorem html_cache_ttl_witness :
    ((5 : ℚ) - 0 < 10 ∧
      get_html (set_html "h" 0) 5 10 = (some "h", set_html "h" 0)) ∧
    ((15 : ℚ) - 0 > 10 ∧
      get_html (set_html "h" 0) 15 10 = (none, HtmlFileState.absent)) :=
  ⟨⟨by norm_num, (html_cache_ttl 0 10 5 "h").1 (by norm_num)⟩,
   ⟨by norm_num, (html_cache_ttl 0 10 15 "h").2.1 (by norm_num)⟩⟩

/-! ## C8: classifier fallback -/

/-- C8.  Classifier fallback: when the feasibility-classification call
raises, `_ranking_node` does not fail — it appends the error to the
`errors` list and deterministically selects the first 5 tasks of the
catalog in catalog order, and the run continues through distribution and
aggregation, producing one aggregated output per selected task. -/
theorem classifier_fallback (state : RankingState) (msg : String)
    (outcomes : InvestigationTask → AgentOutcome) :
    (ranking_node state (.failure msg)).errors =
      state.errors ++ ["Task ranking error: " ++ msg] ∧
    (ranking_node state (.failure msg)).ranked_tasks =
      state.investigation_tasks.take 5 ∧
    (workflow_after_ranking (ranking_node state (.failure msg)).ranked_tasks
        outcomes).length = (state.investigation_tasks.take 5).length := by
  refine ⟨rfl, rfl, ?_⟩
  unfold workflow_after_ranking aggregate_results
  rw [(List.perm_insertionSort taskIdLe _).length_eq, List.length_map]
  rfl

/-! ## C4: live end-to-end run (constructor keyword mismatch) -/

/-- C4 (code bug).  The live background run can never reach its result
event: `run_workflow_sync` (agent.py:200) constructs
`FraudDetectionWorkflow(openrouter_api_key=...)`, but
`FraudDetectionWorkflow.__init__` (workflow.py:98-103) declares only
`ranking_model`, `detection_model` and `temperature`, so the call raises
`TypeError` before the workflow runs; the `except` branch then emits a
single error event, and no `result` event is ever emitted — contrary to
the claimed log-events-then-one-result stream. -/
theorem live_run_ctor_type_error (ctor_msg : String)
    (rest : Unit → List Observation) :
    ctorRaisesTypeError = true ∧
    run_workflow_sync_events ctor_msg rest =
      [errorEvent ("Investigation failed: " ++ ctor_msg)] ∧
    (run_workflow_sync_events ctor_msg rest).countP
      (fun o => o.lookup "type" == some "result") = 0 := by
  refine ⟨rfl, rfl, ?_⟩
  rfl

/-! ## C9: terminal signal always -/

/-- Mapping commutes with taking the last element. -/
lemma getLast?_map {α β : Type} (f : α → β) :
    ∀ l : List α, (l.map f).getLast? = (l.getLast?).map f := by
  intro l
  induction l with
  | nil => rfl
  | cons a tl ih =>
      cases tl with
      | nil => rfl
      | cons b tl2 => simpa using ih

/-- C9.  Terminal signal always: every execution of `run_workflow_sync`
ends by emitting exactly one terminal event — the result event with
status "completed" when the try body completes, the
"Investigation failed" error event when any exception escapes — and the
replay task likewise ends with the replayed stream's final event (its
recorded terminal) on success, the synthetic error event on an empty log,
and the "Replay failed" error event when an exception escapes; no path
ends without a terminal signal. -/
theorem terminal_signal_always
    (pre_terminal : List Observation)
    (hpre : ∀ o ∈ pre_terminal, isTerminal o = false)
    (outcome : LiveRunOutcome)
    (parse : String → Option ℚ) (speed : ℚ) (messages : List Observation)
    (pre_events : List Observation) (rmsg : String)
    (hrpre : ∀ o ∈ pre_events, isTerminal o = false) :
    ((run_workflow_sync_trace pre_terminal outcome).countP isTerminal = 1) ∧
    (∀ s, outcome = .completes s →
      (run_workflow_sync_trace pre_terminal outcome).getLast? =
        some (resultEvent s)) ∧
    (∀ m, outcome = .raises m →
      (run_workflow_sync_trace pre_terminal outcome).getLast? =
        some (errorEvent ("Investigation failed: " ++ m))) ∧
    (messages = [] →
      replay_run_trace parse speed messages none =
        [errorEvent "No saved messages found for replay"]) ∧
    (messages ≠ [] →
      (replay_run_trace parse speed messages none).getLast? =
        (messages.getLast?).map clean_event) ∧
    ((replay_run_trace parse speed messages (some (pre_events, rmsg))).getLast? =
      some (errorEvent ("Replay failed: " ++ rmsg))) ∧
    ((replay_run_trace parse speed messages (some (pre_events, rmsg))).countP
      isTerminal = 1) := by
  have hpre0 : pre_terminal.countP isTerminal = 0 :=
    List.countP_eq_zero.mpr (fun o ho => by simp [hpre o ho])
  have hrpre0 : pre_events.countP isTerminal = 0 :=
    List.countP_eq_zero.mpr (fun o ho => by simp [hrpre o ho])
  refine ⟨?_, ?_, ?_, ?_, ?_, ?_, ?_⟩
  · cases outcome with
    | completes s =>
        show (pre_terminal ++ [resultEvent s]).countP isTerminal = 1
        rw [List.countP_append, hpre0]
        rfl
    | raises m =>
        show (pre_terminal ++
          [errorEvent ("Investigation failed: " ++ m)]).countP isTerminal = 1
        rw [List.countP_append, hpre0]
        rfl
  · intro s hs0
    subst hs0
    exact List.getLast?_concat _
  · intro m hm
    subst hm
    exact List.getLast?_concat _
  · intro hempty
    show (if messages = [] then [errorEvent "No saved messages found for replay"]
        else (replay_trace parse speed messages).map Prod.snd) = _
    rw [if_pos hempty]
  · intro hne2
    have hred : replay_run_trace parse speed messages none =
        (replay_trace parse speed messages).map Prod.snd := by
      show (if messages = [] then [errorEvent "No saved messages found for replay"]
          else (replay_trace parse speed messages).map Prod.snd) = _
      rw [if_neg hne2]
    rw [hred, replay_trace_map_snd, getLast?_map]
  · exact List.getLast?_concat _
  · show (pre_events ++
      [errorEvent ("Replay failed: " ++ rmsg)]).countP isTerminal = 1
    rw [List.countP_append, hrpre0]
    rfl

/-- C9 witness: a concrete completed live run emits exactly one terminal
event, and a concrete failed replay ends with the "Replay failed" error
event. -/
theorem terminal_signal_always_witness :
    ((run_workflow_sync_trace [[("type", "log"), ("message", "m1")]]
        (.completes "sum")).countP isTerminal = 1) ∧
    ((replay_run_trace (fun _ => none) 1 [[("type", "log")]]
        (some ([], "oops"))).getLast? =
      some (errorEvent ("Replay failed: " ++ "oops"))) :=
  ⟨(terminal_signal_always [[("type", "log"), ("message", "m1")]] (by decide)
      (.completes "sum") (fun _ => none) 1 [[("type", "log")]] [] "oops"
      (by decide)).1,
   (terminal_signal_always [[("type", "log"), ("message", "m1")]] (by decide)
      (.completes "sum") (fun _ => none) 1 [[("type", "log")]] [] "oops"
      (by decide)).2.2.2.2.2.1⟩

/-! ## C6: OCR partial hit — helper lemmas -/

/-- Membership in a Python integer range. -/
lemma mem_pythonRange (a b p : Int) :
    p ∈ pythonRange a b ↔ a ≤ p ∧ p < b := by
  unfold pythonRange
  simp only [List.mem_map, List.mem_range]
  constructor
  · rintro ⟨k, hk, rfl⟩
    omega
  · rintro ⟨h1, h2⟩
    exact ⟨(p - a).toNat, by omega, by omega⟩

/-- A Python integer range has no duplicates. -/
lemma nodup_pythonRange (a b : Int) : (pythonRange a b).Nodup := by
  unfold pythonRange
  refine List.Nodup.map ?_ (List.nodup_range _)
  intro x y h
  have h2 : a + (x : Int) = a + (y : Int) := h
  omega

/-- Membership in the requested page interval. -/
lemma mem_requested_pages (a b p : Int) :
    p ∈ requested_pages a b ↔ a ≤ p ∧ p ≤ b := by
  rw [requested_pages, mem_pythonRange]
  omega

/-- Looking up a non-member of the key list in a `filterMap`-built page
dict finds nothing. -/
lemma lookup_filterMap_not_mem (g : Int → Option String) :
    ∀ (l : List Int) (p : Int), p ∉ l →
      (l.filterMap (fun q => (g q).map (fun t => (q, t)))).lookup p = none := by
  intro l
  induction l with
  | nil => intro p _; rfl
  | cons q rest ih =>
      intro p hp
      have hpq : p ≠ q := fun h => hp (h ▸ List.mem_cons_self q rest)
      have hpr : p ∉ rest := fun h => hp (List.mem_cons_of_mem q h)
      rw [List.filterMap_cons]
      rcases hg : g q with _ | t
      · simpa using ih p hpr
      · have hbeq : (p == q) = false := beq_eq_false_iff_ne.mpr hpq
        simpa [List.lookup_cons, hbeq] using ih p hpr

/-- Looking up a member of the key list in a `filterMap`-built page dict
recovers the underlying partial function. -/
lemma lookup_filterMap_mem (g : Int → Option String) :
    ∀ (l : List Int) (p : Int), p ∈ l →
      (l.filterMap (fun q => (g q).map (fun t => (q, t)))).lookup p = g p := by
  intro l
  induction l with
  | nil => intro p hp; cases hp
  | cons q rest ih =>
      intro p hp
      rw [List.filterMap_cons]
      by_cases hpq : p = q
      · subst hpq
        rcases hg : g p with _ | t
        · by_cases hpr : p ∈ rest
          · simpa [hg] using ih p hpr
          · simpa [hg] using lookup_filterMap_not_mem g rest p hpr
        · simp [List.lookup_cons, hg]
      · have hp2 : p ∈ rest := by
          rcases List.mem_cons.mp hp with h | h
          · exact absurd h hpq
          · exact h
        rcases hg : g q with _ | t
        · simpa using ih p hp2
        · have hbeq : (p == q) = false := beq_eq_false_iff_ne.mpr hpq
          simpa [List.lookup_cons, hbeq] using ih p hp2

/-- Writing one OCR page then reading the same key yields the written
text. -/
lemma get_ocr_result_set_same (c : OcrCache) (t : String) (r p : Int)
    (txt : String) :
    get_ocr_result (set_ocr_result c t r p txt) t r p = some txt := by
  unfold get_ocr_result set_ocr_result
  simp [List.lookup_cons]

/-- Dropping one key from the cache list does not change lookups of other
keys. -/
lemma lookup_filter_key_ne (k k' : OcrKey) (hne : k' ≠ k) :
    ∀ c : OcrCache,
      (c.filter (fun e => !(e.1 == k))).lookup k' = c.lookup k' := by
  intro c
  induction c with
  | nil => rfl
  | cons e rest ih =>
      rcases e with ⟨ke, te⟩
      by_cases he : ke = k
      · have hk'k : (k' == k) = false := beq_eq_false_iff_ne.mpr hne
        have hk'e : (k' == ke) = false :=
          beq_eq_false_iff_ne.mpr (by rw [he]; exact hne)
        simp [List.filter_cons, he, List.lookup_cons, hk'e, hk'k, ih]
      · have hbeq : ((ke, te).1 == k) = false := beq_eq_false_iff_ne.mpr he
        by_cases hk'e : k' = ke
        · simp [List.filter_cons, hbeq, List.lookup_cons, hk'e]
        · have hb2 : (k' == ke) = false := beq_eq_false_iff_ne.mpr hk'e
          simp [List.filter_cons, hbeq, List.lookup_cons, hb2, ih]

/-- Writing one OCR page leaves every other key's lookup unchanged. -/
lemma get_ocr_result_set_ne (c : OcrCache) (t : String) (r p : Int)
    (t' : String) (r' p' : Int) (txt : String)
    (h : (t', r', p') ≠ ((t, r, p) : OcrKey)) :
    get_ocr_result (set_ocr_result c t r p txt) t' r' p' =
      get_ocr_result c t' r' p' := by
  unfold get_ocr_result set_ocr_result
  have hbeq : (((t', r', p') : OcrKey) == (t, r, p)) = false :=
    beq_eq_false_iff_ne.mpr h
  rw [List.lookup_cons, hbeq]
  exact lookup_filter_key_ne (t, r, p) (t', r', p') h c

/-- The write-back fold leaves keys it does not write unchanged. -/
lemma ocr_write_back_not_written (t : String) (r : Int) :
    ∀ (writes : List (Int × String)) (c : OcrCache) (t' : String)
      (r' p' : Int),
      (∀ w ∈ writes, ¬(t' = t ∧ r' = r ∧ p' = w.1)) →
      get_ocr_result (ocr_write_back c t r writes) t' r' p' =
        get_ocr_result c t' r' p' := by
  intro writes
  induction writes with
  | nil => intro c _ _ _ _; rfl
  | cons w ws ih =>
      intro c t' r' p' h
      show get_ocr_result (ocr_write_back (set_ocr_result c t r w.1 w.2) t r ws)
        t' r' p' = _
      rw [ih _ _ _ _ (fun w' hw' => h w' (List.mem_cons_of_mem _ hw'))]
      refine get_ocr_result_set_ne c t r w.1 t' r' p' w.2 ?_
      intro heq
      rw [Prod.ext_iff, Prod.ext_iff] at heq
      exact h w (List.mem_cons_self _ _) ⟨heq.1, heq.2.1, heq.2.2⟩

/-- After the write-back fold, a written page reads back its written text
(keys written at most once). -/
lemma ocr_write_back_written (t : String) (r : Int) :
    ∀ (writes : List (Int × String)) (c : OcrCache) (p : Int) (txt : String),
      (writes.map Prod.fst).Nodup → (p, txt) ∈ writes →
      get_ocr_result (ocr_write_back c t r writes) t r p = some txt := by
  intro writes
  induction writes with
  | nil => intro c p txt _ h; cases h
  | cons w ws ih =>
      intro c p txt hnd hmem
      rw [List.map_cons, List.nodup_cons] at hnd
      show get_ocr_result (ocr_write_back (set_ocr_result c t r w.1 w.2) t r ws)
        t r p = some txt
      rcases List.mem_cons.mp hmem with heq | hmem2
      · rw [ocr_write_back_not_written t r ws _ t r p ?_]
        · rw [← heq]
          exact get_ocr_result_set_same c t r p txt
        · intro w' hw' hc
          rcases hc with ⟨_, _, hp⟩
          apply hnd.1
          have hw1 : w.1 = p := by rw [← heq]
          rw [hw1, hp]
          exact List.mem_map_of_mem Prod.fst hw'
      · exact ih _ p txt hnd.2 hmem2

/-- Lookup in the pairing of a key list with a function, at a member
key. -/
lemma lookup_map_pair_mem (h : Int → String) :
    ∀ (l : List Int) (p : Int), p ∈ l →
      (l.map (fun q => (q, h q))).lookup p = some (h p) := by
  intro l
  induction l with
  | nil => intro p hp; cases hp
  | cons q rest ih =>
      intro p hp
      by_cases hpq : p = q
      · subst hpq
        simp [List.lookup_cons]
      · have hbeq : (p == q) = false := beq_eq_false_iff_ne.mpr hpq
        have hp2 : p ∈ rest := by
          rcases List.mem_cons.mp hp with hh | hh
          · exact absurd hh hpq
          · exact hh
        simp [List.lookup_cons, hbeq, ih p hp2]

/-- Lookup in the pairing of a key list with a function, at a non-member
key. -/
lemma lookup_map_pair_not_mem (h : Int → String) :
    ∀ (l : List Int) (p : Int), p ∉ l →
      (l.map (fun q => (q, h q))).lookup p = none := by
  intro l
  induction l with
  | nil => intro p _; rfl
  | cons q rest ih =>
      intro p hp
      have hpq : p ≠ q := fun hh => hp (hh ▸ List.mem_cons_self q rest)
      have hpr : p ∉ rest := fun hh => hp (List.mem_cons_of_mem q hh)
      have hbeq : (p == q) = false := beq_eq_false_iff_ne.mpr hpq
      simp [List.lookup_cons, hbeq, ih p hpr]

/-- A `filterMap` by a function that is total on the list is the
corresponding `map`. -/
lemma filterMap_of_total (g : Int → Option String) (h : Int → String)
    (fmt : Int → String → String) :
    ∀ l : List Int, (∀ p ∈ l, g p = some (h p)) →
      l.filterMap (fun p => (g p).map (fmt p)) =
        l.map (fun p => fmt p (h p)) := by
  intro l
  induction l with
  | nil => intro _; rfl
  | cons q rest ih =>
      intro hall
      rw [List.filterMap_cons, hall q (List.mem_cons_self q rest)]
      simp only [Option.map_some']
      rw [List.map_cons, ih (fun p hp => hall p (List.mem_cons_of_mem q hp))]

/-- For a requested page, the per-page cache dict agrees with the
underlying cache read. -/
lemma cached_pages_lookup_mem (cache : OcrCache) (tid : String)
    (rid a b p : Int) (hp : p ∈ requested_pages a b) :
    (get_ocr_results_range cache tid rid a b).lookup p =
      get_ocr_result cache tid rid p :=
  lookup_filterMap_mem (get_ocr_result cache tid rid)
    (pythonRange a (b + 1)) p hp

/-- The pages sent to OCR are exactly the requested pages missing from
the cache. -/
lemma mem_pages_to_ocr (cache : OcrCache) (tid : String) (rid a b p : Int) :
    p ∈ pages_to_ocr cache tid rid a b ↔
      a ≤ p ∧ p ≤ b ∧ get_ocr_result cache tid rid p = none := by
  unfold pages_to_ocr
  rw [List.mem_filter]
  constructor
  · rintro ⟨hmem, hpred⟩
    have hb := (mem_requested_pages a b p).mp hmem
    refine ⟨hb.1, hb.2, ?_⟩
    rw [cached_pages_lookup_mem cache tid rid a b p hmem] at hpred
    rcases ho : get_ocr_result cache tid rid p with _ | t
    · rfl
    · rw [ho] at hpred
      cases hpred
  · rintro ⟨h1, h2, h3⟩
    have hmem : p ∈ requested_pages a b := (mem_requested_pages a b p).mpr ⟨h1, h2⟩
    refine ⟨hmem, ?_⟩
    rw [cached_pages_lookup_mem cache tid rid a b p hmem, h3]
    rfl

/-- The pages sent to OCR are pairwise distinct. -/
lemma nodup_pages_to_ocr (cache : OcrCache) (tid : String) (rid a b : Int) :
    (pages_to_ocr cache tid rid a b).Nodup :=
  List.Nodup.filter _ (nodup_pythonRange a (b + 1))

/-- With a per-page pure collaborator returning nonempty text, the
`newly_extracted` dict pairs each missing page with its extracted text. -/
lemma newly_extracted_collab (f : Int → String) (hf : ∀ q, f q ≠ "")
    (l : List Int) :
    newly_extracted ((l.map (fun p => p - 1)).map (fun i => (i, f i))) =
      l.map (fun p => (p, f (p - 1))) := by
  unfold newly_extracted
  rw [List.map_map, List.map_map]
  have hmap : l.map (((fun pr : Int × String => (pr.1 + 1, pr.2)) ∘
      (fun i => (i, f i))) ∘ (fun p => p - 1)) =
        l.map (fun p => (p, f (p - 1))) := by
    refine List.map_congr_left (fun p _ => ?_)
    show (p - 1 + 1, f (p - 1)) = (p, f (p - 1))
    rw [Int.sub_add_cancel]
  rw [hmap]
  refine List.filter_eq_self.mpr (fun pr hpr => ?_)
  rcases List.mem_map.mp hpr with ⟨p, _, rfl⟩
  have : (f (p - 1) == "") = false := beq_eq_false_iff_ne.mpr (hf (p - 1))
  simp [this]

/-- The collaborator call made by the OCR path: none on a full cache hit,
otherwise exactly the 0-indexed missing pages. -/
lemma ocr_read_called_with (cache : OcrCache) (tid : String) (rid a b : Int)
    (collab : List Int → List (Int × String)) :
    (read_buyer_attachment_doc_ocr cache tid rid a b collab).ocr_called_with =
      if pages_to_ocr cache tid rid a b = [] then none
      else some ((pages_to_ocr cache tid rid a b).map (fun p => p - 1)) := by
  unfold read_buyer_attachment_doc_ocr
  by_cases h : pages_to_ocr cache tid rid a b = []
  · rw [if_pos h, if_pos h]
  · rw [if_neg h, if_neg h]

/-- The cache state after the OCR path: unchanged on a full hit, otherwise
the per-page write-back of the newly extracted pages. -/
lemma ocr_read_cache (cache : OcrCache) (tid : String) (rid a b : Int)
    (collab : List Int → List (Int × String)) :
    (read_buyer_attachment_doc_ocr cache tid rid a b collab).cache =
      if pages_to_ocr cache tid rid a b = [] then cache
      else ocr_write_back cache tid rid (newly_extracted (collab
        ((pages_to_ocr cache tid rid a b).map (fun p => p - 1)))) := by
  unfold read_buyer_attachment_doc_ocr
  by_cases h : pages_to_ocr cache tid rid a b = []
  · rw [if_pos h, if_pos h]
  · rw [if_neg h, if_neg h]

/-- The text assembled by the OCR path. -/
lemma ocr_read_text (cache : OcrCache) (tid : String) (rid a b : Int)
    (collab : List Int → List (Int × String)) :
    (read_buyer_attachment_doc_ocr cache tid rid a b collab).text =
      if pages_to_ocr cache tid rid a b = [] then
        assemble_text (requested_pages a b)
          (fun p => (get_ocr_results_range cache tid rid a b).lookup p)
      else
        assemble_text (requested_pages a b)
          (merged_pages (get_ocr_results_range cache tid rid a b)
            (newly_extracted (collab
              ((pages_to_ocr cache tid rid a b).map (fun p => p - 1))))) := by
  unfold read_buyer_attachment_doc_ocr
  by_cases h : pages_to_ocr cache tid rid a b = []
  · rw [if_pos h, if_pos h]
  · rw [if_neg h, if_neg h]

/-- The pages reported read by the OCR path. -/
lemma ocr_read_pages_read (cache : OcrCache) (tid : String) (rid a b : Int)
    (collab : List Int → List (Int × String)) :
    (read_buyer_attachment_doc_ocr cache tid rid a b collab).pages_read =
      if pages_to_ocr cache tid rid a b = [] then
        (requested_pages a b).filter
          (fun p => ((get_ocr_results_range cache tid rid a b).lookup p).isSome)
      else
        (requested_pages a b).filter
          (fun p => (merged_pages (get_ocr_results_range cache tid rid a b)
            (newly_extracted (collab
              ((pages_to_ocr cache tid rid a b).map (fun p => p - 1)))) p).isSome) := by
  unfold read_buyer_attachment_doc_ocr
  by_cases h : pages_to_ocr cache tid rid a b = []
  · rw [if_pos h, if_pos h]
  · rw [if_neg h, if_neg h]

/-- C6.  OCR partial hit: for a request spanning pages `[a, b]` on a fixed
`(tender_id, row_id)`, against a per-page pure OCR collaborator returning
nonempty markdown — exactly the pages of `requested − cached` are sent to
the collaborator (0-indexed, none at all when the difference is empty);
every newly extracted page is written back to the per-page cache (and no
other key is touched, so cached pages keep their cached text); and the
returned text is assembled from cached plus new pages in ascending page
order, each cached page contributing its cached text verbatim. -/
theorem ocr_partial_hit
    (cache : OcrCache) (tid : String) (rid a b : Int)
    (f : Int → String) (hf : ∀ q, f q ≠ "")
    (collab : List Int → List (Int × String))
    (hcollab : ∀ input, collab input = input.map (fun i => (i, f i)))
    (res : OcrReadResult)
    (hres : res = read_buyer_attachment_doc_ocr cache tid rid a b collab) :
    (res.ocr_called_with = none ↔
      ∀ p, a ≤ p → p ≤ b → (get_ocr_result cache tid rid p).isSome = true) ∧
    (∀ ps, res.ocr_called_with = some ps →
      ∀ q, q ∈ ps ↔ (a ≤ q + 1 ∧ q + 1 ≤ b ∧
        get_ocr_result cache tid rid (q + 1) = none)) ∧
    (∀ p, a ≤ p → p ≤ b → get_ocr_result cache tid rid p = none →
      get_ocr_result res.cache tid rid p = some (f (p - 1))) ∧
    (∀ p txt, get_ocr_result cache tid rid p = some txt →
      get_ocr_result res.cache tid rid p = some txt) ∧
    (res.text = String.intercalate "\n\n"
      ((requested_pages a b).map (fun p => pagePart p
        (match get_ocr_result cache tid rid p with
         | some t => t
         | none => f (p - 1))))) ∧
    (res.pages_read = requested_pages a b) := by
  have hnew : newly_extracted (collab
      ((pages_to_ocr cache tid rid a b).map (fun p => p - 1))) =
        (pages_to_ocr cache tid rid a b).map (fun q => (q, f (q - 1))) := by
    rw [hcollab]
    exact newly_extracted_collab f hf _
  by_cases hempty : pages_to_ocr cache tid rid a b = []
  · -- full cache hit: no collaborator call
    have hallsome : ∀ p ∈ requested_pages a b,
        (get_ocr_result cache tid rid p).isSome = true := by
      intro p hp
      have hpred := List.filter_eq_nil_iff.mp hempty p hp
      cases hb2 : ((get_ocr_results_range cache tid rid a b).lookup p).isSome with
      | false => exact absurd (by rw [hb2]; rfl) hpred
      | true =>
          rw [← cached_pages_lookup_mem cache tid rid a b p hp]
          exact hb2
    have hcachedtot : ∀ p ∈ requested_pages a b,
        (get_ocr_results_range cache tid rid a b).lookup p =
          some (match get_ocr_result cache tid rid p with
            | some t => t
            | none => f (p - 1)) := by
      intro p hp
      rcases ho : get_ocr_result cache tid rid p with _ | t
      · have hcontra := hallsome p hp
        rw [ho] at hcontra
        exact absurd hcontra (by simp)
      · rw [cached_pages_lookup_mem cache tid rid a b p hp, ho]
    refine ⟨?_, ?_, ?_, ?_, ?_, ?_⟩
    · rw [hres, ocr_read_called_with, if_pos hempty]
      constructor
      · intro _ p h1 h2
        exact hallsome p ((mem_requested_pages a b p).mpr ⟨h1, h2⟩)
      · intro _
        rfl
    · rw [hres, ocr_read_called_with, if_pos hempty]
      intro ps hps
      exact absurd hps (by simp)
    · intro p h1 h2 h3
      have hmem : p ∈ pages_to_ocr cache tid rid a b :=
        (mem_pages_to_ocr cache tid rid a b p).mpr ⟨h1, h2, h3⟩
      rw [hempty] at hmem
      cases hmem
    · intro p txt htxt
      rw [hres, ocr_read_cache, if_pos hempty]
      exact htxt
    · rw [hres, ocr_read_text, if_pos hempty]
      unfold assemble_text
      rw [filterMap_of_total _ _ _ _ hcachedtot]
    · rw [hres, ocr_read_pages_read, if_pos hempty]
      refine List.filter_eq_self.mpr (fun p hp => ?_)
      rw [hcachedtot p hp]
      rfl
  · -- partial (or full) miss: collaborator called on the complement
    have hmergetot : ∀ p ∈ requested_pages a b,
        merged_pages (get_ocr_results_range cache tid rid a b)
          ((pages_to_ocr cache tid rid a b).map (fun q => (q, f (q - 1)))) p =
          some (match get_ocr_result cache tid rid p with
            | some t => t
            | none => f (p - 1)) := by
      intro p hp
      have hb := (mem_requested_pages a b p).mp hp
      rcases ho : get_ocr_result cache tid rid p with _ | t
      · have hmem : p ∈ pages_to_ocr cache tid rid a b :=
          (mem_pages_to_ocr cache tid rid a b p).mpr ⟨hb.1, hb.2, ho⟩
        unfold merged_pages
        rw [lookup_map_pair_mem (fun q => f (q - 1)) _ p hmem]
      · have hnotmem : p ∉ pages_to_ocr cache tid rid a b := by
          intro hmem
          rcases (mem_pages_to_ocr cache tid rid a b p).mp hmem with ⟨_, _, hnone⟩
          rw [ho] at hnone
          cases hnone
        unfold merged_pages
        rw [lookup_map_pair_not_mem (fun q => f (q - 1)) _ p hnotmem]
        rw [cached_pages_lookup_mem cache tid rid a b p hp, ho]
    have hkeys : (((pages_to_ocr cache tid rid a b).map
        (fun q => (q, f (q - 1)))).map Prod.fst).Nodup := by
      rw [List.map_map]
      have hcomp : (Prod.fst ∘ fun q : Int => (q, f (q - 1))) = id := rfl
      rw [hcomp, List.map_id]
      exact nodup_pages_to_ocr cache tid rid a b
    refine ⟨?_, ?_, ?_, ?_, ?_, ?_⟩
    · rw [hres, ocr_read_called_with, if_neg hempty]
      constructor
      · intro h
        exact absurd h (by simp)
      · intro hall2
        exfalso
        apply hempty
        refine List.filter_eq_nil_iff.mpr (fun p hp => ?_)
        have hb := (mem_requested_pages a b p).mp hp
        have hsome := hall2 p hb.1 hb.2
        rw [cached_pages_lookup_mem cache tid rid a b p hp]
        simp [hsome]
    · rw [hres, ocr_read_called_with, if_neg hempty]
      intro ps hps
      have hps2 : (pages_to_ocr cache tid rid a b).map (fun p => p - 1) = ps :=
        Option.some.inj hps
      intro q
      rw [← hps2, List.mem_map]
      constructor
      · rintro ⟨p, hp, rfl⟩
        have hq1 : p - 1 + 1 = p := Int.sub_add_cancel p 1
        rw [hq1]
        exact (mem_pages_to_ocr cache tid rid a b p).mp hp
      · rintro ⟨h1, h2, h3⟩
        exact ⟨q + 1,
          (mem_pages_to_ocr cache tid rid a b (q + 1)).mpr ⟨h1, h2, h3⟩,
          by omega⟩
    · intro p h1 h2 h3
      rw [hres, ocr_read_cache, if_neg hempty, hnew]
      have hmem : p ∈ pages_to_ocr cache tid rid a b :=
        (mem_pages_to_ocr cache tid rid a b p).mpr ⟨h1, h2, h3⟩
      exact ocr_write_back_written tid rid _ cache p (f (p - 1)) hkeys
        (List.mem_map_of_mem _ hmem)
    · intro p txt htxt
      rw [hres, ocr_read_cache, if_neg hempty, hnew]
      rw [ocr_write_back_not_written tid rid _ cache tid rid p ?_]
      · exact htxt
      · intro w hw hc
        rcases List.mem_map.mp hw with ⟨q, hq, rfl⟩
        rcases hc with ⟨_, _, hpq⟩
        rcases (mem_pages_to_ocr cache tid rid a b q).mp hq with ⟨_, _, hnone⟩
        have hpq2 : p = q := hpq
        rw [← hpq2] at hnone
        rw [htxt] at hnone
        cases hnone
    · rw [hres, ocr_read_text, if_neg hempty, hnew]
      unfold assemble_text
      rw [filterMap_of_total _ _ _ _ hmergetot]
    · rw [hres, ocr_read_pages_read, if_neg hempty, hnew]
      refine List.filter_eq_self.mpr (fun p hp => ?_)
      rw [hmergetot p hp]
      rfl

/-- C6 witness: pages 1-3 requested with page 2 cached; the read succeeds
with every requested page read. -/
theorem ocr_partial_hit_witness :
    (read_buyer_attachment_doc_ocr [(("T", 1, 2), "c2")] "T" 1 1 3
        (fun input => input.map (fun i => (i, "X")))).pages_read =
      requested_pages 1 3 :=
  (ocr_partial_hit [(("T", 1, 2), "c2")] "T" 1 1 3 (fun _ => "X")
    (fun _ => (by decide : ("X" : String) ≠ ""))
    (fun input => input.map (fun i => (i, "X")))
    (fun _ => rfl) _ rfl).2.2.2.2.2

end Themis
